import Mathlib

/-!
Verification development for the magazine-collector repository.

The embedded code is `.github/scripts/collector.py` (the classification and
persistence pipeline: `classify_text`, `save_articles`, the per-magazine loop
in `main`) and `.github/scripts/collector_mvp.py` (`epub_to_md` and its
driver loop).  Python strings are modelled as Lean `String`s (all inputs of
interest are ASCII); regex matching of the fixed patterns in the source is
modelled by explicit character scanners documented at each definition.
Definitions whose name begins with `spec` model formulas that appear only in
the natural-language specification, never in the code; they exist to be
compared against the code-derived definitions.
-/

namespace Collector

/-- Python `\s` on ASCII text: space, tab, newline, carriage return,
vertical tab, form feed. -/
def isWS (c : Char) : Bool :=
  c == ' ' || c == '\t' || c == '\n' || c == '\r' || c == '\x0b' || c == '\x0c'

/-- Python `\w` on ASCII text: letters, digits, underscore. -/
def isWordChar (c : Char) : Bool :=
  c.isAlphanum || c == '_'

/-- ASCII uppercase letter, the `[A-Z]` class of the split regex. -/
def isAsciiUpper (c : Char) : Bool :=
  'A' ≤ c && c ≤ 'Z'

/-- ASCII `str.lower` on one character, as Python lowercases the ASCII
range: `A`..`Z` shift by 32, everything else unchanged. -/
def lowerChar (c : Char) : Char :=
  if 'A' ≤ c ∧ c ≤ 'Z' then Char.ofNat (c.toNat + 32) else c

/-- ASCII uppercasing of one character (used by `str.capitalize`). -/
def upperChar (c : Char) : Char :=
  if 'a' ≤ c ∧ c ≤ 'z' then Char.ofNat (c.toNat - 32) else c

/-- `text.lower()` (collector.py line 160). -/
def pyLower (s : String) : String :=
  ⟨s.data.map lowerChar⟩

/-- Strip leading and trailing whitespace from a character list. -/
def stripChars (l : List Char) : List Char :=
  ((l.dropWhile isWS).reverse.dropWhile isWS).reverse

/-- Python `str.strip()` (collector.py lines 174 and 189). -/
def pyStrip (s : String) : String :=
  ⟨stripChars s.data⟩

/-- Python `str.capitalize()`: first character uppercased, the rest
lowercased (collector.py line 206). -/
def pyCapitalize (s : String) : String :=
  match s.data with
  | [] => ⟨[]⟩
  | c :: cs => ⟨upperChar c :: cs.map lowerChar⟩

/-- `article.split('\n')[0]`: the first line of a string.  Python
`split` always returns at least one element, so the `else` arm of
collector.py line 211 is unreachable and the title is always the first
line. -/
def firstLine (s : String) : String :=
  ⟨s.data.takeWhile (fun c => c != '\n')⟩

/-- The module-level `TOPICS_KEYWORDS` dictionary of collector.py lines
49-58, in its insertion (= iteration) order. -/
def TOPICS_KEYWORDS : List (String × List String) :=
  [("technology", ["tech", "technology", "ai", "artificial intelligence", "digital", "software",
      "hardware", "computer", "internet", "cyber", "machine learning", "blockchain", "data",
      "algorithm"]),
   ("finance", ["finance", "economy", "economic", "market", "stock", "banking", "investment",
      "trade", "fiscal", "monetary", "inflation", "recession", "currency", "debt"]),
   ("science", ["science", "mathematics", "physics", "chemistry", "biology", "research",
      "discovery", "experiment", "theory", "scientific", "quantum", "equation", "hypothesis"]),
   ("world_affairs", ["politics", "war", "conflict", "diplomacy", "international", "global",
      "government", "policy", "election", "crisis", "treaty", "sanction", "alliance", "nation"])]

/-- Does the keyword match at the head of `t`, with a word boundary
after it?  Every keyword of `TOPICS_KEYWORDS` begins and ends with a
letter, so the trailing `\b` of the pattern
`\b + re.escape(keyword) + \b` holds exactly when the character
following the matched span is absent or a non-word character. -/
def matchHere : List Char → List Char → Bool
  | [], rest =>
    match rest with
    | [] => true
    | d :: _ => !isWordChar d
  | _ :: _, [] => false
  | k :: ks, c :: cs => k == c && matchHere ks cs

/-- Scan `t` for a whole-word occurrence of `kw`.  `prevWord` records
whether the character before the current position is a word character;
the leading `\b` of the pattern holds exactly when it is not (keywords
begin with a letter). -/
def wholeWordFrom (kw : List Char) : Bool → List Char → Bool
  | _, [] => false
  | prevWord, c :: cs =>
    (!prevWord && matchHere kw (c :: cs)) || wholeWordFrom kw (isWordChar c) cs

/-- The search for pattern `\b + re.escape(keyword) + \b` in the article is truthy
(collector.py line 181). -/
def hasWholeWord (article kw : String) : Bool :=
  wholeWordFrom kw.data false article.data

/-- Per-topic keyword hit counts of one article (collector.py lines
179-183): `hits` is the number of DISTINCT keywords of the topic that
occur at least once as a whole word — `sum(1 for keyword in keywords if
re.search(...))` — not the number of occurrences. -/
def topic_hits (article : String) : List (String × Nat) :=
  TOPICS_KEYWORDS.map (fun p => (p.1, (p.2.filter (fun kw => hasWholeWord article kw)).length))

/-- `article_topics`: the topics with a positive hit count, in the
iteration order of `TOPICS_KEYWORDS` (collector.py lines 178-183). -/
def article_topics (article : String) : List (String × Nat) :=
  (topic_hits article).filter (fun p => 0 < p.2)

/-- Stable insertion (descending by hit count) used to model
`article_topics.sort(key=lambda x: x[1], reverse=True)`: an element is
placed before the first existing element whose count is ≤ its own, so
earlier list elements stay before later ones on equal counts, exactly
as the stable sort of Python does. -/
def insertDesc (x : String × Nat) : List (String × Nat) → List (String × Nat)
  | [] => [x]
  | y :: ys => if y.2 ≤ x.2 then x :: y :: ys else y :: insertDesc x ys

/-- Stable descending sort by hit count (collector.py line 187). -/
def sortDesc : List (String × Nat) → List (String × Nat)
  | [] => []
  | x :: xs => insertDesc x (sortDesc xs)

/-- `best_topic` (collector.py lines 186-188): the head of the stably
descending-sorted positive-hit list, or nothing when no topic had a
hit — in which case the article is appended nowhere. -/
def best_topic (article : String) : Option String :=
  match sortDesc (article_topics article) with
  | [] => none
  | p :: _ => some p.1

/-- Length of the leading whitespace run. -/
def countWS (l : List Char) : Nat :=
  (l.takeWhile isWS).length

/-- Length of the leading run of `#` characters. -/
def countHash (l : List Char) : Nat :=
  (l.takeWhile (fun c => c == '#')).length

/-- Length of the leading run of newline characters. -/
def countNL (l : List Char) : Nat :=
  (l.takeWhile (fun c => c == '\n')).length

/-- Match of the first split alternative `\n\s*#{1,3}\s+` at the head of
the list, returning the matched length.  After the newline, the greedy
`\s*` takes the maximal whitespace run (no backtracking can help, since
`#` is not whitespace); then 1-3 `#` must follow (with four or more
`#`s every backtracking choice leaves a `#` where `\s+` must match, so
the alternative fails), then a non-empty greedy whitespace run. -/
def matchAltA : List Char → Option Nat
  | [] => none
  | c :: rest =>
    if c = '\n' then
      let w := countWS rest
      let afterWS := rest.drop w
      let hc := countHash afterWS
      if 1 ≤ hc ∧ hc ≤ 3 then
        let tw := countWS (afterWS.drop hc)
        if 1 ≤ tw then some (1 + w + hc + tw) else none
      else none
    else none

/-- Match of the second split alternative `\n\n+(?=[A-Z])` at the head
of the list, returning the matched length.  The greedy `\n+` takes the
maximal newline run; backtracking cannot help since any shorter run is
followed by `\n`, which is not in `[A-Z]`.  The lookahead consumes
nothing. -/
def matchAltB : List Char → Option Nat
  | [] => none
  | c :: rest =>
    if c = '\n' then
      let n := countNL rest
      if 1 ≤ n ∧ isAsciiUpper ((rest.drop n).headD ' ') then some (1 + n) else none
    else none

/-- Leftmost match of the split pattern
`\n\s*#{1,3}\s+|\n\n+(?=[A-Z])` at the head of the list; the first
alternative is preferred, as in regex alternation. -/
def findMatch (l : List Char) : Option Nat :=
  match matchAltA l with
  | some n => some n
  | none => matchAltB l

/-- Worker of `re.split`: scan left to right; at the first position
where the pattern matches, emit the accumulated piece and continue
after the match.  `fuel` bounds the recursion by the list length; every
match has length ≥ 2, so the fuel never runs out when it starts at the
list length. -/
def goSplit (fuel : Nat) (acc l : List Char) : List (List Char) :=
  match l with
  | [] => [acc.reverse]
  | c :: cs =>
    match fuel with
    | 0 => [acc.reverse ++ (c :: cs)]
    | Nat.succ fuel =>
      match findMatch (c :: cs) with
      | some len => acc.reverse :: goSplit fuel [] (cs.drop (len - 1))
      | none => goSplit fuel (c :: acc) cs

/-- The call `re.split` on pattern `\n\s*#{1,3}\s+|\n\n+(?=[A-Z])`
(collector.py line 165). -/
def reSplit (l : List Char) : List (List Char) :=
  goSplit l.length [] l

/-- The candidate pieces produced inside `classify_text` for
`file_type == "article"`: the lowercased text is split on the pattern
above (collector.py lines 160-165). -/
def splitArticles (text : String) : List String :=
  (reSplit (pyLower text).data).map (fun l => ⟨l⟩)

/-- The article list classify_text iterates over: the split pieces for
`file_type == "article"`, otherwise the whole lowercased text as one
article (collector.py lines 163-168). -/
def splitPieces (text file_type : String) : List String :=
  if file_type = "article" then splitArticles text else [pyLower text]

/-- `classify_text(text, file_type)` (collector.py lines 158-191): for
each topic, in dictionary order, the list of articles assigned to it.
The imperative loop appends `article.strip()` to the list of the best
topic of every piece whose stripped length is at least 100; read off
per topic, that list is the order-preserving `filterMap` below. -/
def classify_text (text : String) (file_type : String) : List (String × List String) :=
  let pieces := splitPieces text file_type
  TOPICS_KEYWORDS.map (fun p =>
    (p.1, pieces.filterMap (fun a =>
      if 100 ≤ (pyStrip a).data.length then
        match best_topic a with
        | some t => if t = p.1 then some (pyStrip a) else none
        | none => none
      else none)))

/-- The list of articles a classification result holds for one topic
(`classified_articles[topic]`). -/
def lookupTopic (cls : List (String × List String)) (t : String) : List String :=
  match cls.find? (fun p => p.1 == t) with
  | some p => p.2
  | none => []

/-- The per-article section `save_articles` writes (collector.py lines
208-215): a `##` heading holding the first line of the article, the
article body, and a `---` rule. -/
def article_section (a : String) : String :=
  "## " ++ firstLine a ++ "\n\n" ++ a ++ "\n\n---\n\n"

/-- The header line of one output file (collector.py line 206). -/
def file_header (magazine_name topic today : String) : String :=
  "# " ++ pyCapitalize magazine_name ++ " - " ++ pyCapitalize topic ++
    " Articles (" ++ today ++ ")\n\n"

/-- The full text written to one topic file. -/
def file_text (magazine_name topic today : String) (articles : List String) : String :=
  file_header magazine_name topic today ++ String.join (articles.map article_section)

/-- The path of one topic file, `ARTICLES_DIR / topic /
f"{magazine_name}_{today}.md"` (collector.py line 203). -/
def file_path (magazine_name topic today : String) : String :=
  "articles/" ++ topic ++ "/" ++ magazine_name ++ "_" ++ today ++ ".md"

/-- `save_articles(magazine_name, classified_articles)` (collector.py
lines 193-219): topics with an empty list are skipped; for each other
topic one file is written holding ALL of its articles, and the results
dictionary records the article count.  Returns the results entries and
the written files (path and content), both in iteration order. -/
def save_articles (magazine_name today : String) (cls : List (String × List String)) :
    List (String × Nat) × List (String × String) :=
  match cls with
  | [] => ([], [])
  | (t, articles) :: rest =>
    let tail := save_articles magazine_name today rest
    if articles.isEmpty then tail
    else ((t, articles.length) :: tail.1,
          (file_path magazine_name t today, file_text magazine_name t today articles) :: tail.2)

/-- Count the whole-word occurrences of `kw` starting at each scanned
position.  Distinct whole-word occurrences of one keyword cannot
overlap (an occurrence starting inside another is preceded by a word
character), so this equals the non-overlapping occurrence count of the
regex engine. -/
def countWordFrom (kw : List Char) : Bool → List Char → Nat
  | _, [] => 0
  | prevWord, c :: cs =>
    (if !prevWord && matchHere kw (c :: cs) then 1 else 0) +
      countWordFrom kw (isWordChar c) cs

/-- Number of whole-word occurrences of one keyword in an article. -/
def countWholeWord (article kw : String) : Nat :=
  countWordFrom kw.data false article.data

/-- Modelled from the spec: the specification scores a topic by the
COUNT of whole-word matches of any keyword of its list (total
occurrences), which no code in the repository computes; written here to
be compared with the code-derived `topic_hits`. -/
def specScore (article : String) (topic : String) : Nat :=
  match TOPICS_KEYWORDS.find? (fun p => p.1 == topic) with
  | some p => (p.2.map (fun kw => countWholeWord article kw)).sum
  | none => 0

/-- Split a character list into maximal non-whitespace runs, as Python
`str.split()` with no argument does: `acc` carries the reversed current
run. -/
def wordsGo (acc : List Char) : List Char → List (List Char)
  | [] => if acc.isEmpty then [] else [acc.reverse]
  | c :: cs =>
    if isWS c then
      if acc.isEmpty then wordsGo [] cs else acc.reverse :: wordsGo [] cs
    else wordsGo (c :: acc) cs

/-- Modelled from the spec: `wordCount` = number of whitespace-delimited
tokens.  The code never computes a word count; this definition exists
to evaluate the word-count claims against the code behaviour. -/
def specWordCount (s : String) : Nat :=
  (wordsGo [] s.data).length

/-- The sentence-terminal characters named by the punctuation gate of
the specification; no code in the repository inspects them. -/
def terminalChars : List Char :=
  ['.', '?', '!', '”', '’', '"']

/-- Round-half-to-even of the rational `a / b` (`b > 0`), what Python
`round(a / b)` computes on these values. -/
def roundHalfEven (a b : Nat) : Nat :=
  let q := a / b
  let r := a % b
  if 2 * r < b then q
  else if b < 2 * r then q + 1
  else if q % 2 = 0 then q else q + 1

/-- Modelled from the spec: `readingTimeMinutes = max(1, round(wordCount
/ R))` at the cited rate R = 230 words per minute.  No code in the
repository computes a reading time; the definition exists to evaluate
the reading-time claim against the persisted output. -/
def specReadingTime (wordCount : Nat) : Nat :=
  max 1 (roundHalfEven wordCount 230)

/-- Does `sub` occur as a contiguous substring of `s`?  Used to inspect
the persisted file contents for metadata keys. -/
def hasSubstr (s sub : String) : Bool :=
  (List.range (s.data.length + 1)).any (fun i => List.isPrefixOf sub.data (s.data.drop i))

/-- Does `s` end with the suffix `suf` (Python `str.endswith`)? -/
def pathEndsWith (s suf : String) : Bool :=
  List.isPrefixOf suf.data.reverse s.data.reverse

/-- The externally supplied outcomes for one magazine in `main`
(collector.py lines 519-545): whether `download_magazine` returned a
path, and what the text extraction did with that path (`Except.error`
models a raised parse exception, which nothing in `main` catches). -/
structure MagazineRun where
  downloaded : Option String
  extracted : Except String String

/-- The per-magazine loop of `main` (collector.py lines 519-545).  A
failed download is skipped with `continue`; an unsupported extension is
skipped; a parse error raised by `extract_text_from_epub` or
`extract_text_from_pdf` is NOT caught and propagates, aborting every
remaining magazine.  On success the magazine is classified and saved
and its topic counts recorded. -/
def processMagazines (today : String) :
    List (String × MagazineRun) → Except String (List (String × List (String × Nat)))
  | [] => Except.ok []
  | (name, run) :: rest =>
    match run.downloaded with
    | none => processMagazines today rest
    | some path =>
      if pathEndsWith path ".epub" || pathEndsWith path ".pdf" then
        match run.extracted with
        | Except.error e => Except.error e
        | Except.ok text =>
          match processMagazines today rest with
          | Except.error e => Except.error e
          | Except.ok tail =>
            Except.ok ((name, (save_articles name today (classify_text text "article")).1) :: tail)
      else processMagazines today rest

/-- `epub_to_md` of collector_mvp.py lines 66-106: the whole body sits
in a `try` whose `except` logs and returns, so a parse failure yields
no output file and no exception escapes.  On success the extracted text
is written out. -/
def mvp_epub_to_md : Except String String → Option String
  | Except.error _ => none
  | Except.ok text => some text

/-- The conversion loop of `main` in collector_mvp.py lines 364-366:
every EPUB file is handed to `epub_to_md`, whose internal handler makes
each call total. -/
def mvp_main_loop : List (Except String String) → List (Option String)
  | [] => []
  | r :: rs => mvp_epub_to_md r :: mvp_main_loop rs

/-- A run of `n` letters z, used as keyword-free filler. -/
def zs (n : Nat) : String :=
  ⟨List.replicate n 'z'⟩

/-- A 103-character candidate with exactly one keyword hit (`ai`): its
maximum topic score is 1, below every confidence threshold the
specification names. -/
def lowConfText : String :=
  "ai " ++ zs 100

/-- A candidate with four occurrences of the one technology keyword
`ai` (occurrence score 4, distinct-keyword score 1) and one occurrence
each of the finance keywords `finance`, `economy`, `market`
(occurrence score 3, distinct-keyword score 3). -/
def occText : String :=
  "ai ai ai ai finance economy market " ++ zs 70

/-- The candidate of the specification example: `ai`, `software` and
`internet` each twice (6 technology-lexicon occurrences, 3 distinct
keywords) and no keyword of any other topic. -/
def techSixText : String :=
  "ai software internet ai software internet " ++ zs 70

/-- A long-enough candidate with a keyword hit whose final character is
the letter x — not a sentence-terminal character. -/
def noPeriodText : String :=
  "ai " ++ zs 100 ++ " x"

/-- The same candidate with a trailing period added. -/
def periodText : String :=
  noPeriodText ++ "."

/-- A 120-character candidate containing no keyword of any topic. -/
def zeroHitText : String :=
  zs 120

/-- Sixty characters shared by the two colliding candidates below. -/
def commonChars : List Char :=
  List.intercalate [' '] (List.replicate 20 ['z', 'q']) ++ [' ']

/-- First candidate: the shared 60-character opening, then `ai` and
z-filler. -/
def dupA1 : String :=
  ⟨commonChars⟩ ++ "ai " ++ zs 45

/-- Second candidate: identical first 60 characters, different tail. -/
def dupA2 : String :=
  ⟨commonChars⟩ ++ "ai " ++ ⟨List.replicate 45 'w'⟩

/-- One document holding both candidates, separated by the `\n# `
heading marker that the split pattern of `classify_text` recognises. -/
def dupInput : String :=
  dupA1 ++ "\n# " ++ dupA2

/-- A block of 250 one-letter words ending in a period (500
characters). -/
def blockA : List Char :=
  List.intercalate [' '] (List.replicate 250 ['z']) ++ ['.']

/-- Two blocks of 250 words each, both ending in a period, separated by
three blank lines (four consecutive newlines); the second block starts
with a capital letter. -/
def bigText3 : String :=
  ⟨blockA ++ ['\n', '\n', '\n', '\n'] ++ ('Z' :: blockA.drop 1)⟩

/-- Characters both lacking in any text on which the dead second split
alternative could fire: a text is split-inert when it holds no `#`
(killing the `\n\s*#{1,3}\s+` alternative) and no ASCII capital
(killing the `\n\n+(?=[A-Z])` alternative).  Lowercasing makes every
text capital-free, so after `text.lower()` only `#` headers can ever
split. -/
def splitInert (l : List Char) : Bool :=
  l.all (fun c => !(c == '#') && !isAsciiUpper c)

/-! Helper lemmas about the embedded definitions. -/

/-- The stable descending sort of a non-empty list starts with one of
its elements, and that element has a maximal hit count. -/
theorem sortDesc_spec (l : List (String × Nat)) :
    (l = [] ∧ sortDesc l = []) ∨
      ∃ p rest, sortDesc l = p :: rest ∧ p ∈ l ∧ ∀ q ∈ l, q.2 ≤ p.2 := by
  induction l with
  | nil => exact Or.inl ⟨rfl, rfl⟩
  | cons x xs ih =>
    right
    rcases ih with ⟨hnil, hsort⟩ | ⟨p, rest, heq, hmem, hmax⟩
    · subst hnil
      exact ⟨x, [], rfl, List.mem_singleton_self x, by simp⟩
    · show ∃ p rest, insertDesc x (sortDesc xs) = p :: rest ∧ _
      rw [heq]
      by_cases hle : p.2 ≤ x.2
      · refine ⟨x, p :: rest, by simp [insertDesc, hle], List.mem_cons_self x xs, ?_⟩
        intro q hq
        rcases List.mem_cons.mp hq with h | h
        · subst h; exact le_refl _
        · exact le_trans (hmax q h) hle
      · refine ⟨p, insertDesc x rest, by simp [insertDesc, hle], List.mem_cons_of_mem x hmem, ?_⟩
        intro q hq
        rcases List.mem_cons.mp hq with h | h
        · subst h; omega
        · exact hmax q h

/-- When some topic has a positive hit count, `best_topic` returns a
topic drawn from `article_topics` whose hit count is maximal there. -/
theorem best_topic_max (a : String) (h : article_topics a ≠ []) :
    ∃ t n, best_topic a = some t ∧ (t, n) ∈ article_topics a ∧
      ∀ q ∈ article_topics a, q.2 ≤ n := by
  rcases sortDesc_spec (article_topics a) with ⟨hnil, _⟩ | ⟨p, rest, heq, hmem, hmax⟩
  · exact absurd hnil h
  · exact ⟨p.1, p.2, by simp [best_topic, heq], hmem, hmax⟩

/-- Every pair of `topic_hits` names one of the four declared topics. -/
theorem mem_topic_hits_name (a : String) (t : String) (n : Nat)
    (h : (t, n) ∈ topic_hits a) :
    t = "technology" ∨ t = "finance" ∨ t = "science" ∨ t = "world_affairs" := by
  simp only [topic_hits, TOPICS_KEYWORDS, List.map_cons, List.map_nil, List.mem_cons,
    List.not_mem_nil, or_false, Prod.mk.injEq] at h
  rcases h with ⟨h, -⟩ | ⟨h, -⟩ | ⟨h, -⟩ | ⟨h, -⟩ <;> simp [h.symm]

/-- Membership in `article_topics` is membership in `topic_hits` with a
positive count. -/
theorem mem_article_topics (a : String) (p : String × Nat) :
    p ∈ article_topics a ↔ p ∈ topic_hits a ∧ 0 < p.2 := by
  simp [article_topics, List.mem_filter]

/-- Every string a classification result holds was appended as
`article.strip()` of a piece that passed the 100-character gate, so its
length is at least 100. -/
theorem mem_classify_length (text ft t s : String)
    (h : s ∈ lookupTopic (classify_text text ft) t) : 100 ≤ s.data.length := by
  unfold lookupTopic at h
  rcases hfind : (classify_text text ft).find? (fun p => p.1 == t) with - | p
  · rw [hfind] at h; simp at h
  · rw [hfind] at h
    have hp : p ∈ classify_text text ft := List.mem_of_find?_eq_some hfind
    unfold classify_text at hp
    rcases List.mem_map.mp hp with ⟨q, -, hq⟩
    have hs : s ∈ p.2 := h
    rw [← hq] at hs
    simp only at hs
    rcases List.mem_filterMap.mp hs with ⟨a, -, hfa⟩
    by_cases hlen : 100 ≤ (pyStrip a).data.length
    · rw [if_pos hlen] at hfa
      rcases hbt : best_topic a with - | bt <;> rw [hbt] at hfa <;> dsimp only at hfa
      · exact absurd hfa (by simp)
      · by_cases hbq : bt = q.1
        · rw [if_pos hbq] at hfa
          have hsa : pyStrip a = s := Option.some.inj hfa
          rw [← hsa]; exact hlen
        · rw [if_neg hbq] at hfa; exact absurd hfa (by simp)
    · rw [if_neg hlen] at hfa; exact absurd hfa (by simp)

/-- If every topic of an article has hit count zero, the positive-hit
list is empty. -/
theorem article_topics_eq_nil (a : String) (h : ∀ p ∈ topic_hits a, p.2 = 0) :
    article_topics a = [] := by
  unfold article_topics
  rw [List.filter_eq_nil_iff]
  intro p hp
  simp [h p hp]

/-- An article none of whose topics has a positive hit count is
assigned no topic at all. -/
theorem best_topic_eq_none (a : String) (h : ∀ p ∈ topic_hits a, p.2 = 0) :
    best_topic a = none := by
  unfold best_topic
  rw [article_topics_eq_nil a h]
  rfl

/-- If every piece of the input is assigned no topic, every topic list
of the classification result is empty. -/
theorem classify_all_nil (text ft : String)
    (h : ∀ a ∈ splitPieces text ft, best_topic a = none) :
    ∀ p ∈ classify_text text ft, p.2 = [] := by
  intro p hp
  unfold classify_text at hp
  rcases List.mem_map.mp hp with ⟨q, -, hq⟩
  rw [← hq]
  simp only
  rw [List.filterMap_eq_nil_iff]
  intro a ha
  rw [h a ha]
  split <;> rfl

/-- Looking any topic up in a result whose lists are all empty yields
the empty list. -/
theorem lookupTopic_of_all_nil (cls : List (String × List String)) (t : String)
    (h : ∀ p ∈ cls, p.2 = []) : lookupTopic cls t = [] := by
  unfold lookupTopic
  cases hfind : cls.find? (fun p => p.1 == t) with
  | none => rfl
  | some p => exact h p (List.mem_of_find?_eq_some hfind)

/-- Saving a classification whose lists are all empty writes no file
and records no count. -/
theorem save_articles_of_all_nil (m d : String) (cls : List (String × List String))
    (h : ∀ p ∈ cls, p.2 = []) : save_articles m d cls = ([], []) := by
  induction cls with
  | nil => rfl
  | cons p rest ih =>
    obtain ⟨t, articles⟩ := p
    have h1 : articles = [] := h (t, articles) (List.mem_cons_self _ _)
    have h2 := ih (fun q hq => h q (List.mem_cons_of_mem _ hq))
    simp [save_articles, h1, h2]

/-- The results record of `save_articles`: one entry per topic with a
non-empty list, holding the full article count of that topic. -/
theorem save_articles_results (m d : String) (cls : List (String × List String)) :
    (save_articles m d cls).1 =
      (cls.filter (fun p => !p.2.isEmpty)).map (fun p => (p.1, p.2.length)) := by
  induction cls with
  | nil => rfl
  | cons p rest ih =>
    obtain ⟨t, articles⟩ := p
    by_cases he : articles.isEmpty
    · simp [save_articles, he, List.filter_cons, ih]
    · simp [save_articles, he, List.filter_cons, ih]

/-- `save_articles` writes exactly one file per topic with a non-empty
article list. -/
theorem save_articles_files_length (m d : String) (cls : List (String × List String)) :
    ((save_articles m d cls).2).length = (cls.filter (fun p => !p.2.isEmpty)).length := by
  induction cls with
  | nil => rfl
  | cons p rest ih =>
    obtain ⟨t, articles⟩ := p
    by_cases he : articles.isEmpty
    · simp [save_articles, he, List.filter_cons, ih]
    · simp [save_articles, he, List.filter_cons, ih]

/-- The total persisted-article count equals the total classified
count: no candidate is dropped between classification and
persistence. -/
theorem save_articles_total (m d : String) (cls : List (String × List String)) :
    (((save_articles m d cls).1).map (fun p => p.2)).sum =
      (cls.map (fun p => p.2.length)).sum := by
  induction cls with
  | nil => rfl
  | cons p rest ih =>
    obtain ⟨t, articles⟩ := p
    by_cases he : articles.isEmpty
    · have : articles = [] := by simpa [List.isEmpty_iff] using he
      simp [save_articles, he, this, ih]
    · simp [save_articles, he, ih]

/-- A split-inert list contains no `#`. -/
theorem splitInert_no_hash (l : List Char) (h : splitInert l = true) :
    ∀ c ∈ l, (c == '#') = false := by
  intro c hc
  have := (List.all_eq_true.mp h) c hc
  simp only [Bool.and_eq_true, Bool.not_eq_true'] at this
  exact this.1

/-- A split-inert list contains no ASCII capital. -/
theorem splitInert_no_upper (l : List Char) (h : splitInert l = true) :
    ∀ c ∈ l, isAsciiUpper c = false := by
  intro c hc
  have := (List.all_eq_true.mp h) c hc
  simp only [Bool.and_eq_true, Bool.not_eq_true'] at this
  exact this.2

/-- Inertness passes to the tail. -/
theorem splitInert_tail (c : Char) (l : List Char) (h : splitInert (c :: l) = true) :
    splitInert l = true := by
  simp only [splitInert, List.all_cons, Bool.and_eq_true] at h ⊢
  exact h.2

/-- A list without `#` has an empty leading `#` run. -/
theorem countHash_eq_zero (l : List Char) (h : ∀ c ∈ l, (c == '#') = false) :
    countHash l = 0 := by
  cases l with
  | nil => rfl
  | cons a as =>
    have := h a (List.mem_cons_self _ _)
    simp [countHash, List.takeWhile_cons, this]

/-- On a `#`-free list the first split alternative never matches. -/
theorem matchAltA_eq_none (l : List Char) (h : ∀ c ∈ l, (c == '#') = false) :
    matchAltA l = none := by
  cases l with
  | nil => rfl
  | cons c rest =>
    simp only [matchAltA]
    by_cases hc : c = '\n'
    · rw [if_pos hc]
      have hz : countHash (rest.drop (countWS rest)) = 0 := by
        apply countHash_eq_zero
        intro d hd
        exact h d (List.mem_cons_of_mem c (List.drop_subset _ rest hd))
      simp only [hz]
      rw [if_neg (by omega)]
    · rw [if_neg hc]

/-- On a capital-free list the second split alternative never
matches. -/
theorem matchAltB_eq_none (l : List Char) (h : ∀ c ∈ l, isAsciiUpper c = false) :
    matchAltB l = none := by
  cases l with
  | nil => rfl
  | cons c rest =>
    simp only [matchAltB]
    by_cases hc : c = '\n'
    · rw [if_pos hc]
      have hu : isAsciiUpper ((rest.drop (countNL rest)).headD ' ') = false := by
        cases hds : rest.drop (countNL rest) with
        | nil => decide
        | cons d ds =>
          have hd : d ∈ rest := List.drop_subset _ rest (by rw [hds]; exact List.mem_cons_self _ _)
          exact h d (List.mem_cons_of_mem c hd)
      simp only [hu]
      rw [if_neg (by simp)]
    · rw [if_neg hc]

/-- On a split-inert list the split pattern never matches. -/
theorem findMatch_eq_none (l : List Char) (h : splitInert l = true) :
    findMatch l = none := by
  unfold findMatch
  rw [matchAltA_eq_none l (splitInert_no_hash l h)]
  exact matchAltB_eq_none l (splitInert_no_upper l h)

/-- `re.split` on a split-inert list returns the whole list as the
single piece: with the pattern unable to match, no boundary is ever
found. -/
theorem goSplit_inert (fuel : Nat) (acc l : List Char) (h : splitInert l = true) :
    goSplit fuel acc l = [acc.reverse ++ l] := by
  induction fuel generalizing acc l with
  | zero =>
    cases l with
    | nil => simp [goSplit]
    | cons c cs => rfl
  | succ fuel ih =>
    cases l with
    | nil => simp [goSplit]
    | cons c cs =>
      have hm := findMatch_eq_none (c :: cs) h
      have htl := splitInert_tail c cs h
      calc goSplit (Nat.succ fuel) acc (c :: cs)
          = goSplit fuel (c :: acc) cs := by
            conv_lhs => rw [goSplit]
            rw [hm]
        _ = [(c :: acc).reverse ++ cs] := ih (c :: acc) cs htl
        _ = [acc.reverse ++ (c :: cs)] := by simp

/-! The claim theorems. -/

set_option maxRecDepth 40000

/-- C1, counterexample: `lowConfText` has a maximum topic score of 1 —
below the minimum confidence threshold (3-5) the claim names — yet the
classifier assigns it `technology`, not the fallback label `General`,
and no `General` list exists in the output at all. -/
theorem c1_counterexample :
    best_topic lowConfText = some "technology" ∧
    (∀ p ∈ topic_hits lowConfText, p.2 ≤ 1) ∧
    lookupTopic (classify_text lowConfText "whole") "technology" = [lowConfText] ∧
    lookupTopic (classify_text lowConfText "whole") "General" = [] := by
  exact ⟨by decide, by decide, by decide, by decide⟩

/-- C1, amended: `classify_text` applies no confidence threshold and
has no `General` fallback.  Whenever at least one topic has a positive
hit count — even a count of 1 — the classifier assigns a real topic of
the lexicon (never `General`) whose hit count is maximal; an article
with no hit at all is assigned no label (see C10).  Classification is a
total function and cannot fail. -/
theorem c1_theorem (a : String) (h : article_topics a ≠ []) :
    ∃ t n, best_topic a = some t ∧ t ≠ "General" ∧ (t, n) ∈ topic_hits a ∧ 0 < n ∧
      ∀ p ∈ topic_hits a, p.2 ≤ n := by
  obtain ⟨t, n, hbt, hmem, hmax⟩ := best_topic_max a h
  have hth := (mem_article_topics a (t, n)).mp hmem
  refine ⟨t, n, hbt, ?_, hth.1, hth.2, ?_⟩
  · rcases mem_topic_hits_name a t n hth.1 with h1 | h1 | h1 | h1 <;> simp [h1]
  · intro p hp
    by_cases hpos : 0 < p.2
    · exact hmax p ((mem_article_topics a p).mpr ⟨hp, hpos⟩)
    · omega

/-- C1, witness: the amended theorem applied to the single-hit
candidate. -/
theorem c1_witness :
    ∃ t n, best_topic lowConfText = some t ∧ t ≠ "General" ∧
      (t, n) ∈ topic_hits lowConfText ∧ 0 < n ∧ ∀ p ∈ topic_hits lowConfText, p.2 ≤ n :=
  c1_theorem lowConfText (by decide)

/-- C2, counterexample: on `occText` the occurrence score of the
specification (`specScore`) makes `technology` the unique maximum
(4 occurrences of `ai` against 3 finance occurrences), yet the code
assigns `finance`, because collector.py line 181 counts DISTINCT
matching keywords (1 for technology, 3 for finance), not
occurrences. -/
theorem c2_counterexample :
    specScore occText "technology" = 4 ∧
    specScore occText "finance" = 3 ∧
    specScore occText "science" = 0 ∧
    specScore occText "world_affairs" = 0 ∧
    topic_hits occText = [("technology", 1), ("finance", 3), ("science", 0), ("world_affairs", 0)] ∧
    best_topic occText = some "finance" ∧
    lookupTopic (classify_text occText "whole") "finance" = [occText] ∧
    lookupTopic (classify_text occText "whole") "technology" = [] := by
  exact ⟨by decide, by decide, by decide, by decide, by decide, by decide, by decide, by decide⟩

/-- C2, amended: `score(topic)` is the number of DISTINCT keywords of
the topic that have at least one whole-word match in the lowercased
text, and the argmax of that score is assigned.  The specification
example still classifies as `technology`: `techSixText` has 6
technology-lexicon occurrences but code score 3 (three distinct
keywords), every other topic scores 0, and the candidate lands in the
`technology` list. -/
theorem c2_theorem :
    specScore techSixText "technology" = 6 ∧
    topic_hits techSixText =
      [("technology", 3), ("finance", 0), ("science", 0), ("world_affairs", 0)] ∧
    best_topic techSixText = some "technology" ∧
    lookupTopic (classify_text techSixText "whole") "technology" = [techSixText] := by
  exact ⟨by decide, by decide, by decide, by decide⟩

/-- C3: `classify_text` lowercases the text BEFORE splitting, so the
`\n\n+(?=[A-Z])` alternative of the split pattern can never match (the
lowercased text holds no ASCII capital); on any text without `#` the
split therefore returns the whole text as one single candidate — blank
lines never produce a boundary, contradicting the claimed two-candidate
segmentation. -/
theorem c3_theorem (text : String) (h : splitInert (pyLower text).data = true) :
    splitArticles text = [pyLower text] := by
  unfold splitArticles reSplit
  rw [goSplit_inert ((pyLower text).data).length [] _ h]
  rfl

/-- C3, witness: `bigText3` — two blocks of 250 words, each ending in a
period, separated by three blank lines, the second starting with a
capital — is lowercased into a split-inert text and yields ONE
candidate, not the two the claim states. -/
theorem c3_witness :
    splitInert (pyLower bigText3).data = true ∧
    specWordCount ⟨blockA⟩ = 250 ∧
    (splitArticles bigText3).length = 1 := by
  refine ⟨by decide, by decide, ?_⟩
  rw [c3_theorem bigText3 (by decide)]
  rfl

/-- C4, counterexample: `noPeriodText` ends in the letter x — not a
sentence-terminal character — yet it is classified and persisted: no
punctuation gate exists anywhere in the filter chain. -/
theorem c4_counterexample :
    lookupTopic (classify_text noPeriodText "whole") "technology" = [noPeriodText] ∧
    noPeriodText.data.getLast? = some 'x' ∧
    'x' ∉ terminalChars := by
  exact ⟨by decide, by decide, by decide⟩

/-- C4, amended: acceptance does not depend on the final character.
The block with its trailing period and the same block with the period
removed are both accepted and classified identically; the only gates
are the 100-character minimum and the existence of a keyword hit. -/
theorem c4_theorem :
    lookupTopic (classify_text periodText "whole") "technology" = [periodText] ∧
    lookupTopic (classify_text noPeriodText "whole") "technology" = [noPeriodText] ∧
    periodText = noPeriodText ++ "." ∧
    periodText.data.getLast? = some '.' := by
  exact ⟨by decide, by decide, rfl, by decide⟩

/-- C5, counterexample: `lowConfText` has only 2 whitespace-delimited
words — far below any 150-300-word threshold — yet it passes the only
length gate in the code (100 CHARACTERS of stripped text, collector.py
line 174) and is persisted. -/
theorem c5_counterexample :
    lookupTopic (classify_text lowConfText "whole") "technology" = [lowConfText] ∧
    specWordCount lowConfText = 2 ∧ 2 < 150 ∧
    (save_articles "economist" "2026-10-12" (classify_text lowConfText "whole")).1 =
      [("technology", 1)] := by
  exact ⟨by decide, by decide, by decide, by decide⟩

/-- C5, amended: the minimum-length invariant that actually holds of
every persisted article is character-based, not word-based: every
string stored in any topic list of a classification result is the
stripped text of a piece that passed the 100-character gate, so its
length is at least 100 characters. -/
theorem c5_theorem (text ft t s : String)
    (h : s ∈ lookupTopic (classify_text text ft) t) : 100 ≤ s.data.length :=
  mem_classify_length text ft t s h

/-- C5, witness: the amended theorem applied to a concrete persisted
article. -/
theorem c5_witness : 100 ≤ lowConfText.data.length :=
  c5_theorem lowConfText "whole" "technology" lowConfText (by decide)

/-- C6, counterexample: `dupA1` and `dupA2` are distinct candidates
sharing their first 60 characters; both survive classification and
BOTH are persisted (count 2), because no fingerprint deduplication
exists anywhere in the code. -/
theorem c6_counterexample :
    lookupTopic (classify_text dupInput "article") "technology" = [dupA1, dupA2] ∧
    dupA1 ≠ dupA2 ∧
    dupA1.data.take 60 = dupA2.data.take 60 ∧
    (save_articles "wired" "2026-10-12" (classify_text dupInput "article")).1 =
      [("technology", 2)] := by
  exact ⟨by decide, by decide, by decide, by decide⟩

/-- C6, amended: `save_articles` persists EVERY classified candidate —
the total persisted count equals the total classified count — so
candidates sharing a 60-character prefix are all written; no
per-fingerprint uniqueness holds. -/
theorem c6_theorem (m d : String) (cls : List (String × List String)) :
    (((save_articles m d cls).1).map (fun p => p.2)).sum =
      (cls.map (fun p => p.2.length)).sum :=
  save_articles_total m d cls

/-- C7, counterexample: a run that persists one article writes a file
whose content holds no `reading_time` and no `words` key at all — no
reading time is computed for any persisted article, so it cannot equal
`max(1, round(wordCount / R))`. -/
theorem c7_counterexample :
    ((save_articles "economist" "2026-10-12" (classify_text lowConfText "whole")).2).length = 1 ∧
    ∀ p ∈ (save_articles "economist" "2026-10-12" (classify_text lowConfText "whole")).2,
      hasSubstr p.2 "reading_time" = false ∧ hasSubstr p.2 "words" = false := by
  exact ⟨by decide, by decide⟩

/-- C7, amended: the persisted file of a run consists of a heading line
and, per article, a `##` title line, the body and a rule — no word
count and no reading-time metadata; the formula of the specification
(`max(1, round(wc / 230))`, giving 2 at 460 words and 1 at 50 words)
appears nowhere in the output. -/
theorem c7_theorem :
    (save_articles "economist" "2026-10-12" (classify_text lowConfText "whole")).2 =
      [("articles/technology/economist_2026-10-12.md",
        "# Economist - Technology Articles (2026-10-12)\n\n## " ++ lowConfText ++
          "\n\n" ++ lowConfText ++ "\n\n---\n\n")] ∧
    specReadingTime 460 = 2 ∧ specReadingTime 50 = 1 := by
  exact ⟨by decide, by decide, by decide⟩

/-- C8, counterexample: a run producing TWO article records writes ONE
Markdown file (not one per record), and that file holds none of the
frontmatter keys (`title:`, `author:`, `journal:`, `reading_time`) the
claim requires. -/
theorem c8_counterexample :
    (save_articles "wired" "2026-10-12" (classify_text dupInput "article")).1 =
      [("technology", 2)] ∧
    ((save_articles "wired" "2026-10-12" (classify_text dupInput "article")).2).length = 1 ∧
    ∀ p ∈ (save_articles "wired" "2026-10-12" (classify_text dupInput "article")).2,
      hasSubstr p.2 "title:" = false ∧ hasSubstr p.2 "author:" = false ∧
        hasSubstr p.2 "journal:" = false ∧ hasSubstr p.2 "reading_time" = false := by
  exact ⟨by decide, by decide, by decide⟩

/-- C8, amended: `save_articles` writes exactly one Markdown file per
TOPIC with a non-empty article list (all articles of that topic go
into the same file), and records the full article count of that topic; there
is no per-record file and no frontmatter block. -/
theorem c8_theorem (m d : String) (cls : List (String × List String)) :
    ((save_articles m d cls).2).length = (cls.filter (fun p => !p.2.isEmpty)).length ∧
    (save_articles m d cls).1 =
      (cls.filter (fun p => !p.2.isEmpty)).map (fun p => (p.1, p.2.length)) :=
  ⟨save_articles_files_length m d cls, save_articles_results m d cls⟩

/-- C9, counterexample: in `main` of collector.py, a parse error raised
while extracting the FIRST magazine propagates (no `try` surrounds the
extraction calls of lines 529-532) and the second, healthy magazine is
never processed: the whole batch aborts with the error. -/
theorem c9_counterexample :
    processMagazines "2026-10-12"
      [("economist", ⟨some "economist.epub", Except.error "parse error"⟩),
       ("wired", ⟨some "wired.epub", Except.ok lowConfText⟩)] =
      Except.error "parse error" := rfl

/-- C9, amended: only collector_mvp.py has the claimed behaviour —
`epub_to_md` catches a parse failure internally, yields no output for
that file, and the loop processes every remaining file (one outcome per
input, always) — while in collector.py an extraction parse error
escapes the per-magazine loop and aborts every remaining magazine. -/
theorem c9_theorem (e : String) (rs : List (Except String String)) (today name : String)
    (rest : List (String × MagazineRun)) :
    mvp_epub_to_md (Except.error e) = none ∧
    mvp_main_loop (Except.error e :: rs) = none :: mvp_main_loop rs ∧
    (mvp_main_loop rs).length = rs.length ∧
    processMagazines today ((name, ⟨some "bad.epub", Except.error e⟩) :: rest) =
      Except.error e := by
  refine ⟨rfl, rfl, ?_, rfl⟩
  induction rs with
  | nil => rfl
  | cons r tl ih => simp [mvp_main_loop, ih]

/-- C10: an article whose every topic hit count is zero is assigned no
topic: if every piece of the input is hit-free, every topic list of the
classification result is empty and `save_articles` persists nothing —
the article is silently omitted from the output. -/
theorem c10_theorem (text ft m today : String)
    (h : ∀ a ∈ splitPieces text ft, ∀ p ∈ topic_hits a, p.2 = 0) :
    (∀ t, lookupTopic (classify_text text ft) t = []) ∧
    save_articles m today (classify_text text ft) = ([], []) := by
  have hb : ∀ a ∈ splitPieces text ft, best_topic a = none :=
    fun a ha => best_topic_eq_none a (h a ha)
  have hnil := classify_all_nil text ft hb
  exact ⟨fun t => lookupTopic_of_all_nil _ t hnil,
    save_articles_of_all_nil m today _ hnil⟩

/-- C10, witness: the hit-free candidate `zeroHitText` (120 characters,
long enough for the length gate) lands in no topic list and produces no
persisted file. -/
theorem c10_witness :
    (∀ t, lookupTopic (classify_text zeroHitText "whole") t = []) ∧
    save_articles "economist" "2026-10-12" (classify_text zeroHitText "whole") = ([], []) :=
  c10_theorem zeroHitText "whole" "economist" "2026-10-12" (by decide)

end Collector


